import Mathlib

/-!
# Verification of the shared validation / upstream-call helpers and handlers

Shallow embedding of `netlify/functions/utils.js` (`validateApiKey`,
`parseRequestBody`, `validateTextLength`, `callGoogleAPI`,
`createSuccessResponse`) and of the two request handlers
(`generate-text.js`, `generate-audio.js`, v1.2.0 versions that use the
shared utils module).

Modelling conventions:
* JavaScript values flowing through the handlers are modelled by `JsValue`
  (JSON values plus `undefined`).  JSON numbers are modelled as integers
  (`Int`); the handlers never perform numeric computation, so fractional
  and exponent literals are left out of the number grammar.
* `JSON.parse` is modelled by the executable recursive-descent parser
  `jsonParse` (fuel-based), `JSON.stringify` by `jsonStringify`.  String
  escaping covers the quote and backslash escapes; `\uXXXX` escapes and
  the JSON spec's rejection of raw control characters are out of scope.
* `process.env.GEMINI_API_KEY` is an `Option String` parameter (`none` =
  variable unset); the outcome of the single `fetch` call is an explicit
  `FetchOutcome` parameter (resolved response / abort by the timeout
  timer / other network rejection), which makes `callGoogleAPI` and the
  handlers pure functions of their inputs.
* JavaScript string `.length` (UTF-16 units) is modelled by codepoint
  length; the two agree on all strings the tests and claims exercise.
-/

/-! ## JSON value model -/

mutual

/-- A JavaScript value as it can appear in the handlers: a JSON value or
`undefined` (the result of a missing-property access). -/
inductive JsValue where
  | undefined
  | null
  | bool (b : Bool)
  | num (n : Int)
  | str (s : String)
  | arr (elems : JsArr)
  | obj (fields : JsObj)

/-- A JavaScript array of `JsValue`s. -/
inductive JsArr where
  | nil
  | cons (hd : JsValue) (tl : JsArr)

/-- A JavaScript object: an ordered list of string-keyed fields
(duplicate keys possible in the syntax; lookup is last-wins as for
`JSON.parse`). -/
inductive JsObj where
  | nil
  | cons (key : String) (val : JsValue) (tl : JsObj)

end

mutual

/-- No `undefined` occurs anywhere inside the value: it is a genuine JSON
value (everything `JSON.parse` produces satisfies this). -/
def noUndefV : JsValue → Bool
  | .undefined => false
  | .null => true
  | .bool _ => true
  | .num _ => true
  | .str _ => true
  | .arr a => noUndefA a
  | .obj o => noUndefO o

/-- `noUndefV` for every element of an array. -/
def noUndefA : JsArr → Bool
  | .nil => true
  | .cons h t => noUndefV h && noUndefA t

/-- `noUndefV` for every field value of an object. -/
def noUndefO : JsObj → Bool
  | .nil => true
  | .cons _ v t => noUndefV v && noUndefO t

end

/-! ## Decimal rendering of numbers (the model of JS number-to-string) -/

/-- The decimal digit character for `d < 10`. -/
def digitChar (d : Nat) : Char := Char.ofNat (48 + d)

/-- Fuel-based accumulator loop producing the decimal digits of `n`
(most significant first), structurally recursive so that it reduces by
`rfl`/`decide`. -/
def natToCharsAux : Nat → Nat → List Char → List Char
  | 0, _, acc => acc
  | fuel + 1, n, acc =>
    if n < 10 then digitChar n :: acc
    else natToCharsAux fuel (n / 10) (digitChar (n % 10) :: acc)

/-- Decimal digits of a natural number, most significant first. -/
def natToChars (n : Nat) : List Char := natToCharsAux (n + 1) n []

/-- Decimal rendering of a natural number as a string (the model of JS
string interpolation of a number). -/
def natStr (n : Nat) : String := String.mk (natToChars n)

/-- Decimal digits of an integer (a leading minus sign when negative). -/
def intChars : Int → List Char
  | .ofNat m => natToChars m
  | .negSucc m => '-' :: natToChars (m + 1)

/-! ## JSON serialization (the model of `JSON.stringify`) -/

/-- Escaping of one character inside a JSON string literal (quote and
backslash; other characters are emitted verbatim). -/
def escChar (c : Char) : List Char :=
  if c = '"' then ['\\', '"']
  else if c = '\\' then ['\\', '\\']
  else [c]

/-- Escaping of a character sequence inside a JSON string literal. -/
def escapeChars : List Char → List Char
  | [] => []
  | c :: cs => escChar c ++ escapeChars cs

/-- A quoted, escaped JSON string literal. -/
def strLit (s : String) : List Char := '"' :: escapeChars s.data ++ ['"']

mutual

/-- Serialization of a value.  On undefined-free values (`noUndefV`) this
is `JSON.stringify`; the handlers only ever serialize parser-produced
values, which are undefined-free. -/
def strV : JsValue → List Char
  | .undefined => 'n' :: 'u' :: 'l' :: 'l' :: []
  | .null => 'n' :: 'u' :: 'l' :: 'l' :: []
  | .bool true => 't' :: 'r' :: 'u' :: 'e' :: []
  | .bool false => 'f' :: 'a' :: 'l' :: 's' :: 'e' :: []
  | .num n => intChars n
  | .str s => strLit s
  | .arr a => '[' :: (strElems a ++ [']'])
  | .obj o => '{' :: (strFields o ++ ['}'])

/-- Comma-separated serialization of the elements of an array. -/
def strElems : JsArr → List Char
  | .nil => []
  | .cons h .nil => strV h
  | .cons h (.cons h' t') => strV h ++ ',' :: strElems (.cons h' t')

/-- Comma-separated serialization of the fields of an object. -/
def strFields : JsObj → List Char
  | .nil => []
  | .cons k v .nil => strLit k ++ ':' :: strV v
  | .cons k v (.cons k' v' t') =>
    (strLit k ++ ':' :: strV v) ++ ',' :: strFields (.cons k' v' t')

end

/-- `JSON.stringify` as a string-valued function. -/
def jsonStringify (v : JsValue) : String := String.mk (strV v)

/-! ## JSON parsing (the model of `JSON.parse`) -/

/-- JSON whitespace (space, tab, line feed, carriage return). -/
def isWs (c : Char) : Bool := c == ' ' || c == '\t' || c == '\n' || c == '\r'

/-- Drop leading JSON whitespace. -/
def skipWs : List Char → List Char
  | [] => []
  | c :: cs => if isWs c then skipWs cs else c :: cs

/-- Split off the longest prefix of decimal digits. -/
def spanDigits : List Char → List Char × List Char
  | [] => ([], [])
  | c :: cs =>
    if c.isDigit then
      let (ds, rest) := spanDigits cs
      (c :: ds, rest)
    else ([], c :: cs)

/-- The numeric value of a list of decimal digit characters. -/
def digitsVal (ds : List Char) : Nat :=
  ds.foldl (fun a c => a * 10 + (c.toNat - 48)) 0

/-- Parse a non-empty run of decimal digits as a natural number. -/
def parseNatNum (cs : List Char) : Option (Nat × List Char) :=
  match spanDigits cs with
  | ([], _) => none
  | (ds, rest) => some (digitsVal ds, rest)

/-- Parse a JSON number (optional minus sign, then digits). -/
def parseNum (cs : List Char) : Option (Int × List Char) :=
  match cs with
  | [] => none
  | c :: cs' =>
    if c = '-' then (parseNatNum cs').map (fun p => (-(p.1 : Int), p.2))
    else (parseNatNum (c :: cs')).map (fun p => ((p.1 : Int), p.2))

/-- The character denoted by a single-character escape sequence. -/
def unescape (c : Char) : Option Char :=
  if c = '"' then some '"'
  else if c = '\\' then some '\\'
  else if c = '/' then some '/'
  else if c = 'n' then some '\n'
  else if c = 't' then some '\t'
  else if c = 'r' then some '\r'
  else if c = 'b' then some (Char.ofNat 8)
  else if c = 'f' then some (Char.ofNat 12)
  else none

/-- Parse the body of a JSON string literal (after the opening quote), up
to and including the closing quote; returns the unescaped characters and
the remaining input. -/
def parseStrBody : List Char → Option (List Char × List Char)
  | [] => none
  | c :: rest =>
    if c = '"' then some ([], rest)
    else if c = '\\' then
      match rest with
      | [] => none
      | e :: rest' =>
        match unescape e, parseStrBody rest' with
        | some u, some (s, r) => some (u :: s, r)
        | _, _ => none
    else
      match parseStrBody rest with
      | some (s, r) => some (c :: s, r)
      | none => none

mutual

/-- Parse one JSON value from the input (leading whitespace allowed),
returning the value and the remaining input.  `fuel` bounds the recursion
depth; `jsonParse` supplies enough fuel for its whole input. -/
def parseVal (fuel : Nat) (cs : List Char) : Option (JsValue × List Char) :=
  match fuel with
  | 0 => none
  | fuel + 1 =>
    match skipWs cs with
    | [] => none
    | c :: cs' =>
      if c = '{' then
        match skipWs cs' with
        | '}' :: rest => some (.obj .nil, rest)
        | cs'' => (parseFields fuel cs'').map (fun p => (JsValue.obj p.1, p.2))
      else if c = '[' then
        match skipWs cs' with
        | ']' :: rest => some (.arr .nil, rest)
        | cs'' => (parseElems fuel cs'').map (fun p => (JsValue.arr p.1, p.2))
      else if c = '"' then
        (parseStrBody cs').map (fun p => (JsValue.str (String.mk p.1), p.2))
      else if c = 't' then
        match cs' with
        | 'r' :: 'u' :: 'e' :: rest => some (.bool true, rest)
        | _ => none
      else if c = 'f' then
        match cs' with
        | 'a' :: 'l' :: 's' :: 'e' :: rest => some (.bool false, rest)
        | _ => none
      else if c = 'n' then
        match cs' with
        | 'u' :: 'l' :: 'l' :: rest => some (.null, rest)
        | _ => none
      else
        (parseNum (c :: cs')).map (fun p => (JsValue.num p.1, p.2))

/-- Parse the elements of a non-empty array, up to and including the
closing bracket. -/
def parseElems (fuel : Nat) (cs : List Char) : Option (JsArr × List Char) :=
  match fuel with
  | 0 => none
  | fuel + 1 =>
    match parseVal fuel cs with
    | none => none
    | some (v, rest) =>
      match skipWs rest with
      | ']' :: rest' => some (.cons v .nil, rest')
      | ',' :: rest' =>
        match parseElems fuel rest' with
        | none => none
        | some (tl, rest'') => some (.cons v tl, rest'')
      | _ => none

/-- Parse the fields of a non-empty object, up to and including the
closing brace. -/
def parseFields (fuel : Nat) (cs : List Char) : Option (JsObj × List Char) :=
  match fuel with
  | 0 => none
  | fuel + 1 =>
    match skipWs cs with
    | '"' :: cs' =>
      match parseStrBody cs' with
      | none => none
      | some (kChars, rest) =>
        match skipWs rest with
        | ':' :: rest' =>
          match parseVal fuel rest' with
          | none => none
          | some (v, rest'') =>
            match skipWs rest'' with
            | '}' :: rest3 => some (.cons (String.mk kChars) v .nil, rest3)
            | ',' :: rest3 =>
              match parseFields fuel rest3 with
              | none => none
              | some (tl, rest4) => some (.cons (String.mk kChars) v tl, rest4)
            | _ => none
        | _ => none
    | _ => none

end

/-- `JSON.parse`: parse a whole string as a single JSON value (trailing
whitespace allowed, anything else after the value is an error).  The
`Except.error` strings model the parser's diagnostic messages. -/
def jsonParse (s : String) : Except String JsValue :=
  match parseVal (s.data.length + 1) s.data with
  | some (v, rest) =>
    if skipWs rest = [] then .ok v
    else .error "Unexpected non-whitespace character after JSON data"
  | none => .error "Unexpected token in JSON"

/-! ## JavaScript value semantics used by the handlers -/

/-- JS truthiness of a value (`Boolean(v)`).  The number model has no
`NaN`, so `0` is the only falsy number. -/
def jsTruthy : JsValue → Bool
  | .undefined => false
  | .null => false
  | .bool b => b
  | .num n => !(n == 0)
  | .str s => !(s == "")
  | .arr _ => true
  | .obj _ => true

/-- `typeof v === 'string'`. -/
def jsIsString : JsValue → Bool
  | .str _ => true
  | _ => false

/-- The underlying string of a string value (only ever read after a
`jsIsString` check). -/
def jsStrVal : JsValue → String
  | .str s => s
  | _ => ""

/-- Last-wins field lookup in an object (the value `JSON.parse` leaves in
place for duplicate keys); `undefined` when the key is absent.  Parser
output never stores `undefined` as a field value, so returning the last
binding whose value is not `undefined` agrees with JS. -/
def JsObj.lookupLast : JsObj → String → JsValue
  | .nil, _ => .undefined
  | .cons k v t, key =>
    match JsObj.lookupLast t key with
    | .undefined => if k = key then v else .undefined
    | found => found

/-- Property access `v.key` / `v?.key` on the values the handlers touch:
objects yield the field (or `undefined`), primitives and nullish values
yield `undefined`.  The handlers only apply non-optional access to values
they have already checked to be non-nullish, where this total model
agrees with JS (which would throw on `null`/`undefined`). -/
def jsGetField (v : JsValue) (key : String) : JsValue :=
  match v with
  | .obj o => JsObj.lookupLast o key
  | _ => .undefined

/-- Array element `a.get i` (`undefined` out of range). -/
def JsArr.get : JsArr → Nat → JsValue
  | .nil, _ => .undefined
  | .cons h _, 0 => h
  | .cons _ t, n + 1 => JsArr.get t n

/-- Index access `v?.[i]`: arrays index, everything else yields
`undefined`. -/
def jsIndex (v : JsValue) (i : Nat) : JsValue :=
  match v with
  | .arr a => JsArr.get a i
  | _ => .undefined

/-! ## Response envelopes -/

/-- A handler/helper response object: `statusCode`, optional headers and
a serialized-JSON body.  Error objects built by the utils module carry no
headers ([]). -/
structure HttpResponse where
  statusCode : Nat
  headers : List (String × String)
  body : String
deriving DecidableEq, Repr

/-- The JSON value serialized into every error body:
an object with a single error.message string. -/
def errorBodyJson (msg : String) : JsValue :=
  .obj (.cons "error" (.obj (.cons "message" (.str msg) .nil)) .nil)

/-- An error response as every helper builds it:
statusCode plus body JSON.stringify of errorBodyJson msg, no headers. -/
def mkErrorResponse (status : Nat) (msg : String) : HttpResponse :=
  ⟨status, [], jsonStringify (errorBodyJson msg)⟩

/-! ## The shared utils module (`netlify/functions/utils.js`) -/

/-- Result of `validateApiKey`: either success carrying the key string,
or failure carrying an error response. -/
inductive ApiKeyResult where
  | ok (apiKey : String)
  | fail (error : HttpResponse)
deriving DecidableEq, Repr

/-- `validateApiKey()`: reads `process.env.GEMINI_API_KEY` (modelled as
the `env` parameter, `none` = unset).  `!apiKey` is true exactly for the
unset variable and the empty string. -/
def validateApiKey (env : Option String) : ApiKeyResult :=
  match env with
  | none => .fail (mkErrorResponse 500 "API 金鑰未設定。請檢查環境變數配置。")
  | some apiKey =>
    if apiKey = "" then .fail (mkErrorResponse 500 "API 金鑰未設定。請檢查環境變數配置。")
    else .ok apiKey

/-- Result of `parseRequestBody`: success carrying the parsed data, or
failure carrying an error response. -/
inductive ParseResult where
  | ok (data : JsValue)
  | fail (error : HttpResponse)

/-- `parseRequestBody(body)`: `!body` (null/undefined body → `none`, or
the empty string) fails with 400; otherwise `JSON.parse` inside
try/catch, wrapping a parse失敗 diagnostic into a 400 error. -/
def parseRequestBody : Option String → ParseResult
  | none => .fail (mkErrorResponse 400 "請求體不得為空。")
  | some s =>
    if s = "" then .fail (mkErrorResponse 400 "請求體不得為空。")
    else
      match jsonParse s with
      | .ok data => .ok data
      | .error m => .fail (mkErrorResponse 400 ("JSON 解析失敗: " ++ m))

/-- Result of `validateTextLength`: `{ valid: true }` (carrying nothing
else) or `{ valid: false, error }`. -/
inductive TextLengthResult where
  | valid
  | invalid (error : HttpResponse)
deriving DecidableEq, Repr

/-- `validateTextLength(text, maxLength, fieldName)`: fails when `!text`
or `typeof text !== 'string'`, fails when `text.length > maxLength`, and
otherwise returns the bare `{ valid: true }`. -/
def validateTextLength (text : JsValue) (maxLength : Nat) (fieldName : String) : TextLengthResult :=
  if !(jsTruthy text) || !(jsIsString text) then
    .invalid (mkErrorResponse 400 (fieldName ++ " 不得為空且必須是字符串。"))
  else if (jsStrVal text).length > maxLength then
    .invalid (mkErrorResponse 400
      (fieldName ++ " 超過最大長度 " ++ natStr maxLength ++ " 字符（當前: "
        ++ natStr (jsStrVal text).length ++ "）。"))
  else .valid

/-- Outcome of the single `fetch` call inside `callGoogleAPI`: the
request resolved with an HTTP response (status and raw body text), or it
rejected with `AbortError` (the timeout timer fired first and aborted
it), or it rejected with some other network-level error. -/
inductive FetchOutcome where
  | response (status : Nat) (bodyText : String)
  | abortError
  | networkError (msg : String)
deriving DecidableEq, Repr

/-- Result of `callGoogleAPI`: success carrying the parsed upstream JSON,
or failure carrying an error response. -/
inductive CallResult where
  | ok (data : JsValue)
  | fail (error : HttpResponse)

/-- `callGoogleAPI(url, payload, timeout)` as a function of the fetch
outcome: non-2xx status → upstream error with the status propagated
verbatim; 2xx with a body `response.json()` cannot parse → 500; a 2xx
JSON body → success with the parsed value unmodified; `AbortError` → 504
timeout mentioning the configured timeout; other rejection → 500 network
error.  (`url` and `payload` only feed the outbound request, which the
outcome parameter abstracts.) -/
def callGoogleAPI (url : String) (payload : JsValue) (outcome : FetchOutcome)
    (timeout : Nat) : CallResult :=
  match outcome with
  | .response status bodyText =>
    if !(200 ≤ status && status < 300) then
      .fail (mkErrorResponse status
        ("Google API 錯誤 (" ++ natStr status ++ "): " ++ bodyText))
    else
      match jsonParse bodyText with
      | .error m => .fail (mkErrorResponse 500 ("無法解析 Google API 響應: " ++ m))
      | .ok data => .ok data
  | .abortError =>
    .fail (mkErrorResponse 504 ("請求超時（" ++ natStr timeout ++ "ms）。請稍後重試。"))
  | .networkError msg => .fail (mkErrorResponse 500 ("網絡錯誤: " ++ msg))

/-- `createSuccessResponse(data)`: status 200, the two fixed headers, and
the exact JSON serialization of `data` as body. -/
def createSuccessResponse (data : JsValue) : HttpResponse :=
  ⟨200,
   [("Content-Type", "application/json"),
    ("Cache-Control", "no-cache, no-store, must-revalidate")],
   jsonStringify data⟩

/-! ## The audio handler (`generate-audio.js`, v1.2.0) -/

/-- `GEMINI_TTS_MODEL` of generate-audio.js. -/
def GEMINI_TTS_MODEL : String := "gemini-2.5-flash-preview-tts"

/-- `API_TIMEOUT` of generate-audio.js (45 s). -/
def AUDIO_API_TIMEOUT : Nat := 45000

/-- `MAX_TEXT_LENGTH` of generate-audio.js. -/
def MAX_TEXT_LENGTH : Nat := 3000

/-- `VOICE_NAME` of generate-audio.js. -/
def VOICE_NAME : String := "Kore"

/-- The TTS endpoint URL with the key appended as a query parameter
(`new URL(...)` plus `searchParams.append('key', apiKey)`). -/
def googleTtsApiUrl (apiKey : String) : String :=
  "https://generativelanguage.googleapis.com/v1beta/models/" ++ GEMINI_TTS_MODEL
    ++ ":generateContent?key=" ++ apiKey

/-- The TTS request payload built in step 5 of the audio handler. -/
def audioPayload (text : JsValue) : JsValue :=
  .obj (.cons "contents"
          (.arr (.cons (.obj (.cons "parts"
            (.arr (.cons (.obj (.cons "text" text .nil)) .nil)) .nil)) .nil))
        (.cons "generationConfig"
          (.obj (.cons "responseModalities" (.arr (.cons (.str "AUDIO") .nil))
            (.cons "speechConfig"
              (.obj (.cons "voiceConfig"
                (.obj (.cons "prebuiltVoiceConfig"
                  (.obj (.cons "voiceName" (.str VOICE_NAME) .nil)) .nil)) .nil)) .nil)))
        (.cons "model" (.str GEMINI_TTS_MODEL) .nil)))

/-- The engine-specific `TypeError` message thrown by
`const { text } = parseResult.data` when the parsed body is `null`
(modelled: exact wording is engine-dependent; only its presence inside
the generic 伺服器錯誤 wrapper matters). -/
def destructureTextMsg : String :=
  "Cannot destructure property 'text' of 'parseResult.data' as it is null."

/-- The inline-audio path `data?.candidates?.[0]?.content?.parts?.[0]?.inlineData`
checked in step 7 of the audio handler. -/
def audioInlineData (data : JsValue) : JsValue :=
  jsGetField (jsIndex (jsGetField (jsGetField (jsIndex (jsGetField data "candidates") 0)
    "content") "parts") 0) "inlineData"

/-- The 500 response returned when the upstream payload lacks inline
audio data (built inline in the handler, without headers). -/
def missingAudioResponse : HttpResponse :=
  mkErrorResponse 500 "語音生成失敗：API 未返回有效的音頻數據。"

/-- `exports.handler` of generate-audio.js: validate key → parse body →
destructure `text` (throws into the outer catch when the body is the
JSON value `null`) → validate length → call the TTS API → require inline
audio data → wrap in the success envelope. -/
def generateAudioHandler (env : Option String) (eventBody : Option String)
    (fetchOutcome : FetchOutcome) : HttpResponse :=
  match validateApiKey env with
  | .fail e => e
  | .ok apiKey =>
    match parseRequestBody eventBody with
    | .fail e => e
    | .ok data =>
      match data with
      | .null => mkErrorResponse 500 ("伺服器錯誤: " ++ destructureTextMsg)
      | _ =>
        let text := jsGetField data "text"
        match validateTextLength text MAX_TEXT_LENGTH "text" with
        | .invalid e => e
        | .valid =>
          match callGoogleAPI (googleTtsApiUrl apiKey) (audioPayload text)
              fetchOutcome AUDIO_API_TIMEOUT with
          | .fail e => e
          | .ok updata =>
            let audioData := audioInlineData updata
            if !(jsTruthy audioData) || !(jsTruthy (jsGetField audioData "data")) then
              missingAudioResponse
            else createSuccessResponse updata

/-! ## The text handler (`generate-text.js`, v1.2.0) -/

/-- `GEMINI_MODEL` of generate-text.js. -/
def GEMINI_MODEL : String := "gemini-2.5-flash-preview-09-2025"

/-- `API_TIMEOUT` of generate-text.js (30 s). -/
def TEXT_API_TIMEOUT : Nat := 30000

/-- `MAX_PROMPT_LENGTH` of generate-text.js. -/
def MAX_PROMPT_LENGTH : Nat := 5000

/-- The text endpoint URL with the key appended as a query parameter. -/
def googleApiUrl (apiKey : String) : String :=
  "https://generativelanguage.googleapis.com/v1beta/models/" ++ GEMINI_MODEL
    ++ ":generateContent?key=" ++ apiKey

/-- The text request payload of step 6 (plus the optional
`systemInstruction` field added when it is truthy). -/
def textPayload (prompt systemInstruction : JsValue) : JsValue :=
  if jsTruthy systemInstruction then
    .obj (.cons "contents"
           (.arr (.cons (.obj (.cons "parts"
             (.arr (.cons (.obj (.cons "text" prompt .nil)) .nil)) .nil)) .nil))
          (.cons "systemInstruction"
            (.obj (.cons "parts"
              (.arr (.cons (.obj (.cons "text" systemInstruction .nil)) .nil)) .nil)) .nil))
  else
    .obj (.cons "contents"
           (.arr (.cons (.obj (.cons "parts"
             (.arr (.cons (.obj (.cons "text" prompt .nil)) .nil)) .nil)) .nil)) .nil)

/-- The engine-specific `TypeError` message thrown by
`const { prompt, systemInstruction } = parseResult.data` when the parsed
body is `null` (modelled: exact wording is engine-dependent). -/
def destructurePromptMsg : String :=
  "Cannot destructure property 'prompt' of 'parseResult.data' as it is null."

/-- The tail of the text handler after prompt/systemInstruction
validation has passed: build the payload, call the API, wrap or pass the
failure through. -/
def textHandlerCall (apiKey : String) (prompt systemInstruction : JsValue)
    (fetchOutcome : FetchOutcome) : HttpResponse :=
  match callGoogleAPI (googleApiUrl apiKey) (textPayload prompt systemInstruction)
      fetchOutcome TEXT_API_TIMEOUT with
  | .fail e => e
  | .ok updata => createSuccessResponse updata

/-- `exports.handler` of generate-text.js: validate key → parse body →
destructure `prompt`/`systemInstruction` (throws into the outer catch
when the body is the JSON value `null`) → validate prompt → validate
systemInstruction when truthy → call the API → wrap the response. -/
def generateTextHandler (env : Option String) (eventBody : Option String)
    (fetchOutcome : FetchOutcome) : HttpResponse :=
  match validateApiKey env with
  | .fail e => e
  | .ok apiKey =>
    match parseRequestBody eventBody with
    | .fail e => e
    | .ok data =>
      match data with
      | .null => mkErrorResponse 500 ("伺服器錯誤: " ++ destructurePromptMsg)
      | _ =>
        let prompt := jsGetField data "prompt"
        let systemInstruction := jsGetField data "systemInstruction"
        match validateTextLength prompt MAX_PROMPT_LENGTH "prompt" with
        | .invalid e => e
        | .valid =>
          if jsTruthy systemInstruction then
            match validateTextLength systemInstruction MAX_PROMPT_LENGTH "systemInstruction" with
            | .invalid e => e
            | .valid => textHandlerCall apiKey prompt systemInstruction fetchOutcome
          else textHandlerCall apiKey prompt systemInstruction fetchOutcome

/-! ## String containment (for the "message contains X" obligations) -/

/-- `sub` occurs contiguously inside `s`. -/
def strContains (s sub : String) : Prop :=
  ∃ p q, s.data = p ++ sub.data ++ q

theorem strContains_mid (x s y : String) : strContains (x ++ s ++ y) s :=
  ⟨x.data, y.data, by simp [String.data_append]⟩

theorem strContains_prefixed (s y : String) : strContains (s ++ y) s := by
  have := strContains_mid "" s y
  rwa [String.empty_append] at this

theorem strContains_suffixed (x s : String) : strContains (x ++ s) s := by
  have := strContains_mid x s ""
  rwa [String.append_empty] at this

/-! ## Decimal digit lemmas -/

theorem digitChar_isDigit : ∀ d, d < 10 → (digitChar d).isDigit = true := by decide

theorem digitChar_val : ∀ d, d < 10 → (digitChar d).toNat - 48 = d := by decide

theorem natToCharsAux_acc (fuel : Nat) : ∀ (n : Nat) (acc : List Char),
    natToCharsAux fuel n acc = natToCharsAux fuel n [] ++ acc := by
  induction fuel with
  | zero => intro n acc; simp [natToCharsAux]
  | succ fuel ih =>
    intro n acc
    simp only [natToCharsAux]
    split
    · simp
    · rw [ih (n / 10) (digitChar (n % 10) :: acc), ih (n / 10) [digitChar (n % 10)]]
      simp

theorem natToCharsAux_extra (n : Nat) : ∀ (fuel₁ fuel₂ : Nat) (acc : List Char),
    n < fuel₁ → n < fuel₂ →
    natToCharsAux fuel₁ n acc = natToCharsAux fuel₂ n acc := by
  induction n using Nat.strongRecOn with
  | _ n ih =>
    intro fuel₁ fuel₂ acc h₁ h₂
    match fuel₁, fuel₂ with
    | f₁ + 1, f₂ + 1 =>
      simp only [natToCharsAux]
      split
      · rfl
      · have hn : 10 ≤ n := by omega
        have hlt : n / 10 < n := Nat.div_lt_self (by omega) (by omega)
        exact ih (n / 10) hlt f₁ f₂ _ (by omega) (by omega)

/-- The one-step unfolding of `natToChars`. -/
theorem natToChars_eq (n : Nat) :
    natToChars n = if n < 10 then [digitChar n]
      else natToChars (n / 10) ++ [digitChar (n % 10)] := by
  show natToCharsAux (n + 1) n [] = _
  simp only [natToCharsAux]
  split
  · rfl
  · rw [natToCharsAux_acc, natToCharsAux_extra (n / 10) n (n / 10 + 1) []
      (by have := Nat.div_lt_self (show 0 < n by omega) (show 1 < 10 by omega); omega)
      (by omega)]
    rfl

theorem natToChars_all_digits (n : Nat) : ∀ c ∈ natToChars n, c.isDigit = true := by
  induction n using Nat.strongRecOn with
  | _ n ih =>
    rw [natToChars_eq]
    split
    · intro c hc
      simp only [List.mem_singleton] at hc
      subst hc
      exact digitChar_isDigit n (by omega)
    · intro c hc
      rw [List.mem_append, List.mem_singleton] at hc
      rcases hc with hc | hc
      · exact ih (n / 10) (Nat.div_lt_self (by omega) (by omega)) c hc
      · subst hc
        exact digitChar_isDigit (n % 10) (Nat.mod_lt n (by omega))

theorem natToChars_ne_nil (n : Nat) : natToChars n ≠ [] := by
  rw [natToChars_eq]
  split
  · simp
  · simp

theorem digitsVal_append (ds : List Char) (d : Char) :
    digitsVal (ds ++ [d]) = digitsVal ds * 10 + (d.toNat - 48) := by
  simp [digitsVal, List.foldl_append]

theorem digitsVal_natToChars (n : Nat) : digitsVal (natToChars n) = n := by
  induction n using Nat.strongRecOn with
  | _ n ih =>
    rw [natToChars_eq]
    split
    · simp only [digitsVal, List.foldl]
      rw [digitChar_val n (by omega)]
      omega
    · rw [digitsVal_append, ih (n / 10) (Nat.div_lt_self (by omega) (by omega)),
        digitChar_val (n % 10) (Nat.mod_lt n (by omega))]
      omega

/-! ## Number parsing round-trip -/

/-- The first character of `rest` (if any) is not a decimal digit, so a
digit run ending right before `rest` is maximal. -/
def headNotDigit : List Char → Bool
  | [] => true
  | c :: _ => !c.isDigit


theorem spanDigits_append (ds : List Char) (rest : List Char)
    (hds : ∀ c ∈ ds, c.isDigit = true) (hrest : headNotDigit rest = true) :
    spanDigits (ds ++ rest) = (ds, rest) := by
  induction ds with
  | nil =>
    cases rest with
    | nil => rfl
    | cons c cs =>
      simp only [headNotDigit, Bool.not_eq_true'] at hrest
      simp [spanDigits, hrest]
  | cons d ds ih =>
    have hd : d.isDigit = true := hds d (by simp)
    have ih' := ih (fun c hc => hds c (by simp [hc]))
    simp only [List.cons_append, spanDigits, hd, if_pos, List.append_eq, ih']

theorem parseNatNum_natToChars (n : Nat) (rest : List Char)
    (hrest : headNotDigit rest = true) :
    parseNatNum (natToChars n ++ rest) = some (n, rest) := by
  unfold parseNatNum
  rw [spanDigits_append (natToChars n) rest (natToChars_all_digits n) hrest]
  obtain ⟨c, cs, h⟩ : ∃ c cs, natToChars n = c :: cs := by
    match h : natToChars n with
    | [] => exact absurd h (natToChars_ne_nil n)
    | c :: cs => exact ⟨c, cs, rfl⟩
  rw [h]
  show some (digitsVal (c :: cs), rest) = some (n, rest)
  rw [← h, digitsVal_natToChars]

theorem parseNum_intChars (n : Int) (rest : List Char)
    (hrest : headNotDigit rest = true) :
    parseNum (intChars n ++ rest) = some (n, rest) := by
  match n with
  | .ofNat m =>
    show parseNum (natToChars m ++ rest) = _
    obtain ⟨c, cs, h⟩ : ∃ c cs, natToChars m = c :: cs := by
      match h : natToChars m with
      | [] => exact absurd h (natToChars_ne_nil m)
      | c :: cs => exact ⟨c, cs, rfl⟩
    have hc : c.isDigit = true := natToChars_all_digits m c (by rw [h]; simp)
    have hcm : c ≠ '-' := by
      intro he; subst he; exact absurd hc (by decide)
    rw [h, List.cons_append]
    simp only [parseNum, if_neg hcm]
    rw [← List.cons_append, ← h, parseNatNum_natToChars m rest hrest]
    rfl
  | .negSucc m =>
    show parseNum (('-' :: natToChars (m + 1)) ++ rest) = _
    rw [List.cons_append]
    simp only [parseNum, if_pos rfl]
    rw [parseNatNum_natToChars (m + 1) rest hrest]
    simp [Int.negSucc_eq]
theorem isDigit_notWs {c : Char} (h : c.isDigit = true) : isWs c = false := by
  by_contra hw
  simp only [Bool.not_eq_false, isWs, Bool.or_eq_true, beq_iff_eq] at hw
  rcases hw with ((rfl | rfl) | rfl) | rfl <;> exact absurd h (by decide)

theorem isDigit_dispatch {c : Char} (h : c.isDigit = true) :
    c ≠ '{' ∧ c ≠ '[' ∧ c ≠ '"' ∧ c ≠ 't' ∧ c ≠ 'f' ∧ c ≠ 'n' := by
  refine ⟨?_, ?_, ?_, ?_, ?_, ?_⟩ <;>
    (intro he; subst he; exact absurd h (by decide))

theorem skipWs_cons {c : Char} (cs : List Char) (h : isWs c = false) :
    skipWs (c :: cs) = c :: cs := by
  simp [skipWs, h]

/-- Unfolding of `parseStrBody` at an unescaped character. -/
theorem parseStrBody_cons_plain {c : Char} (X : List Char)
    (hq : ¬(c = '"')) (hb : ¬(c = '\\')) :
    parseStrBody (c :: X) = match parseStrBody X with
      | some (s, r) => some (c :: s, r)
      | none => none := by
  rw [parseStrBody.eq_def]
  simp only [if_neg hq, if_neg hb]

/-- Unfolding of `parseStrBody` at an escape sequence. -/
theorem parseStrBody_cons_esc (e : Char) (X : List Char) :
    parseStrBody ('\\' :: e :: X) = match unescape e, parseStrBody X with
      | some u, some (s, r) => some (u :: s, r)
      | _, _ => none := by
  rw [parseStrBody.eq_def]
  simp only [if_neg (show ¬('\\' = '"') by decide), if_pos rfl, if_true]

/-- Unfolding of `parseStrBody` at the closing quote. -/
theorem parseStrBody_cons_quote (X : List Char) :
    parseStrBody ('"' :: X) = some ([], X) := by
  rw [parseStrBody.eq_def]
  simp only [if_pos rfl, if_true]

theorem parseStrBody_escape (s : List Char) (rest : List Char) :
    parseStrBody (escapeChars s ++ '"' :: rest) = some (s, rest) := by
  induction s with
  | nil =>
    rw [show escapeChars [] = [] from rfl, List.nil_append, parseStrBody_cons_quote]
  | cons c cs ih =>
    rw [show escapeChars (c :: cs) = escChar c ++ escapeChars cs from rfl]
    by_cases hq : c = '"'
    · subst hq
      rw [show escChar '"' = ['\\', '"'] from rfl, List.append_assoc,
        List.cons_append, List.cons_append, List.nil_append,
        parseStrBody_cons_esc, ih]
      rfl
    · by_cases hb : c = '\\'
      · subst hb
        rw [show escChar '\\' = ['\\', '\\'] from rfl, List.append_assoc,
          List.cons_append, List.cons_append, List.nil_append,
          parseStrBody_cons_esc, ih]
        rfl
      · rw [show escChar c = if c = '"' then ['\\', '"'] else if c = '\\'
            then ['\\', '\\'] else [c] from rfl, if_neg hq, if_neg hb,
          List.append_assoc, List.singleton_append,
          parseStrBody_cons_plain _ hq hb, ih]

/-! ## Support for the serialization round-trip -/

/-- Guard that a serialized number followed by `rest` re-parses exactly:
for numbers, `rest` must not begin with a digit (it always begins with a
delimiter or is empty in serialized output); for other values the guard
is vacuous. -/
def numOkB : JsValue → List Char → Bool
  | .num _, rest => headNotDigit rest
  | _, _ => true

theorem numOkB_nil (v : JsValue) : numOkB v [] = true := by
  cases v <;> rfl

theorem numOkB_cons {c : Char} (v : JsValue) (xs : List Char)
    (hc : c.isDigit = false) : numOkB v (c :: xs) = true := by
  cases v <;> simp [numOkB, headNotDigit, hc]

theorem strLit_length (s : String) :
    (strLit s).length = (escapeChars s.data).length + 2 := by
  simp [strLit]

theorem strV_length_pos (v : JsValue) : 1 ≤ (strV v).length := by
  cases v with
  | undefined => simp [strV]
  | null => simp [strV]
  | bool b => cases b <;> simp [strV]
  | num n =>
    cases n with
    | ofNat m =>
      have := natToChars_ne_nil m
      show 1 ≤ (natToChars m).length
      cases h : natToChars m with
      | nil => exact absurd h this
      | cons c cs => simp
    | negSucc m => show 1 ≤ ('-' :: natToChars (m + 1)).length; simp
  | str s => show 1 ≤ (strLit s).length; rw [strLit_length]; omega
  | arr a => simp [strV]
  | obj o => simp [strV]

theorem intChars_head (n : Int) :
    ∃ c cs, intChars n = c :: cs ∧ (c.isDigit = true ∨ c = '-') := by
  cases n with
  | ofNat m =>
    cases h : natToChars m with
    | nil => exact absurd h (natToChars_ne_nil m)
    | cons c cs =>
      exact ⟨c, cs, h, Or.inl (natToChars_all_digits m c (by rw [h]; simp))⟩
  | negSucc m => exact ⟨'-', natToChars (m + 1), rfl, Or.inr rfl⟩

/-- Every serialized value starts with a non-whitespace character that is
not a closing bracket. -/
theorem strV_head (v : JsValue) :
    ∃ c cs, strV v = c :: cs ∧ isWs c = false ∧ c ≠ ']' := by
  cases v with
  | undefined => exact ⟨'n', _, rfl, by decide, by decide⟩
  | null => exact ⟨'n', _, rfl, by decide, by decide⟩
  | bool b => cases b
              · exact ⟨'f', _, rfl, by decide, by decide⟩
              · exact ⟨'t', _, rfl, by decide, by decide⟩
  | num n =>
    obtain ⟨c, cs, h, hd⟩ := intChars_head n
    refine ⟨c, cs, h, ?_, ?_⟩
    · rcases hd with hd | rfl
      · exact isDigit_notWs hd
      · decide
    · rcases hd with hd | rfl
      · intro he; subst he; exact absurd hd (by decide)
      · decide
  | str s => exact ⟨'"', _, rfl, by decide, by decide⟩
  | arr a => exact ⟨'[', _, rfl, by decide, by decide⟩
  | obj o => exact ⟨'{', _, rfl, by decide, by decide⟩

/-- A non-empty serialized element list starts with its first element's
serialization. -/
theorem strElems_cons_eq (h : JsValue) (t : JsArr) :
    ∃ Y, strElems (.cons h t) = strV h ++ Y := by
  cases t with
  | nil => exact ⟨[], by simp [strElems]⟩
  | cons h' t' => exact ⟨',' :: strElems (.cons h' t'), rfl⟩

/-- A non-empty serialized field list starts with a quote. -/
theorem strFields_cons_eq (k : String) (v : JsValue) (t : JsObj) :
    ∃ Y, strFields (.cons k v t) = '"' :: Y := by
  cases t with
  | nil => exact ⟨escapeChars k.data ++ ['"'] ++ (':' :: strV v), rfl⟩
  | cons k' v' t' =>
    exact ⟨escapeChars k.data ++ ['"'] ++ (':' :: strV v)
      ++ (',' :: strFields (.cons k' v' t')), by simp [strFields, strLit]⟩

/-! ## Branch unfolding lemmas for the parser -/

theorem parseVal_quote (f : Nat) (X : List Char) :
    parseVal (f+1) ('"' :: X) =
      (parseStrBody X).map (fun p => (JsValue.str (String.mk p.1), p.2)) := by
  rw [parseVal.eq_def]
  rfl

theorem parseVal_lbracket (f : Nat) (X : List Char) :
    parseVal (f+1) ('[' :: X) =
      match skipWs X with
      | ']' :: rest => some (JsValue.arr .nil, rest)
      | cs'' => (parseElems f cs'').map (fun p => (JsValue.arr p.1, p.2)) := by
  rw [parseVal.eq_def]
  rfl

theorem parseVal_lbrace (f : Nat) (X : List Char) :
    parseVal (f+1) ('{' :: X) =
      match skipWs X with
      | '}' :: rest => some (JsValue.obj .nil, rest)
      | cs'' => (parseFields f cs'').map (fun p => (JsValue.obj p.1, p.2)) := by
  rw [parseVal.eq_def]
  rfl

theorem parseVal_num_head (f : Nat) (c : Char) (X : List Char)
    (h : c.isDigit = true ∨ c = '-') :
    parseVal (f+1) (c :: X) =
      (parseNum (c :: X)).map (fun p => (JsValue.num p.1, p.2)) := by
  have hws : isWs c = false := by
    rcases h with h | rfl
    · exact isDigit_notWs h
    · decide
  obtain ⟨h1, h2, h3, h4, h5, h6⟩ :
      c ≠ '{' ∧ c ≠ '[' ∧ c ≠ '"' ∧ c ≠ 't' ∧ c ≠ 'f' ∧ c ≠ 'n' := by
    rcases h with h | rfl
    · exact isDigit_dispatch h
    · exact ⟨by decide, by decide, by decide, by decide, by decide, by decide⟩
  rw [parseVal.eq_def]
  rw [skipWs_cons X hws]
  simp only [if_neg h1, if_neg h2, if_neg h3, if_neg h4, if_neg h5, if_neg h6]

theorem parseElems_succ (f : Nat) (cs : List Char) :
    parseElems (f+1) cs =
      match parseVal f cs with
      | none => none
      | some (v, rest) =>
        match skipWs rest with
        | ']' :: rest' => some (JsArr.cons v .nil, rest')
        | ',' :: rest' =>
          match parseElems f rest' with
          | none => none
          | some (tl, rest'') => some (JsArr.cons v tl, rest'')
        | _ => none := by
  rw [parseElems.eq_def]

theorem parseFields_quote (f : Nat) (W : List Char) :
    parseFields (f+1) ('"' :: W) =
      match parseStrBody W with
      | none => none
      | some (kChars, rest) =>
        match skipWs rest with
        | ':' :: rest' =>
          match parseVal f rest' with
          | none => none
          | some (v, rest'') =>
            match skipWs rest'' with
            | '}' :: rest3 => some (JsObj.cons (String.mk kChars) v .nil, rest3)
            | ',' :: rest3 =>
              match parseFields f rest3 with
              | none => none
              | some (tl, rest4) => some (JsObj.cons (String.mk kChars) v tl, rest4)
            | _ => none
        | _ => none := by
  simp only [parseFields]
  rw [skipWs_cons W (by decide)]
  rfl
mutual

/-- Parsing inverts serialization: one serialized value followed by any
suitable rest re-parses to exactly that value. -/
theorem parseVal_strV (fuel : Nat) (v : JsValue) (rest : List Char)
    (hu : noUndefV v = true) (hn : numOkB v rest = true)
    (hf : (strV v).length ≤ fuel) :
    parseVal fuel (strV v ++ rest) = some (v, rest) := by
  cases fuel with
  | zero => exact absurd hf (by have := strV_length_pos v; omega)
  | succ f =>
    cases v with
    | undefined => exact absurd hu (by decide)
    | null =>
      show parseVal (f+1) ('n' :: 'u' :: 'l' :: 'l' :: rest) = _
      rw [parseVal.eq_def]
      rfl
    | bool b =>
      cases b with
      | false =>
        show parseVal (f+1) ('f' :: 'a' :: 'l' :: 's' :: 'e' :: rest) = _
        rw [parseVal.eq_def]
        rfl
      | true =>
        show parseVal (f+1) ('t' :: 'r' :: 'u' :: 'e' :: rest) = _
        rw [parseVal.eq_def]
        rfl
    | num n =>
      obtain ⟨c, cs, hic, hd⟩ := intChars_head n
      have hn' : headNotDigit rest = true := hn
      show parseVal (f+1) (intChars n ++ rest) = _
      rw [hic, List.cons_append, parseVal_num_head f c (cs ++ rest) hd,
        ← List.cons_append, ← hic, parseNum_intChars n rest hn']
      rfl
    | str s =>
      show parseVal (f+1) ('"' :: ((escapeChars s.data ++ ['"']) ++ rest)) = _
      rw [parseVal_quote, List.append_assoc, List.singleton_append,
        parseStrBody_escape]
      rfl
    | arr a =>
      show parseVal (f+1) ('[' :: ((strElems a ++ [']']) ++ rest)) = _
      rw [parseVal_lbracket, List.append_assoc, List.singleton_append]
      cases a with
      | nil =>
        rw [show strElems JsArr.nil ++ ']' :: rest = ']' :: rest from rfl,
          skipWs_cons rest (by decide)]
        rfl
      | cons h t =>
        obtain ⟨Y, hY⟩ := strElems_cons_eq h t
        obtain ⟨c₀, cs₀, hc₀, hws₀, hne₀⟩ := strV_head h
        rw [hY, List.append_assoc, hc₀, List.cons_append, skipWs_cons _ hws₀]
        split
        · rename_i heq
          exact absurd (List.head_eq_of_cons_eq heq) hne₀
        · rw [← List.cons_append, ← hc₀, ← List.append_assoc, ← hY]
          have hx : (noUndefV h && noUndefA t) = true := hu
          rw [Bool.and_eq_true] at hx
          obtain ⟨hu1, hu2⟩ := hx
          have hlen : (strV (JsValue.arr (JsArr.cons h t))).length
              = (strElems (JsArr.cons h t)).length + 2 := by
            show ('[' :: (strElems (JsArr.cons h t) ++ [']'])).length = _
            simp
          rw [parseElems_strElems f h t rest hu1 hu2 (by omega)]
          rfl
    | obj o =>
      show parseVal (f+1) ('{' :: ((strFields o ++ ['}']) ++ rest)) = _
      rw [parseVal_lbrace, List.append_assoc, List.singleton_append]
      cases o with
      | nil =>
        rw [show strFields JsObj.nil ++ '}' :: rest = '}' :: rest from rfl,
          skipWs_cons rest (by decide)]
        rfl
      | cons k v t =>
        obtain ⟨Y, hY⟩ := strFields_cons_eq k v t
        rw [hY, List.cons_append, skipWs_cons _ (by decide)]
        split
        · rename_i heq
          exact absurd (List.head_eq_of_cons_eq heq) (by decide)
        · rw [← List.cons_append, ← hY]
          have hx : (noUndefV v && noUndefO t) = true := hu
          rw [Bool.and_eq_true] at hx
          obtain ⟨hu1, hu2⟩ := hx
          have hlen : (strV (JsValue.obj (JsObj.cons k v t))).length
              = (strFields (JsObj.cons k v t)).length + 2 := by
            show ('{' :: (strFields (JsObj.cons k v t) ++ ['}'])).length = _
            simp
          rw [parseFields_strFields f k v t rest hu1 hu2 (by omega)]
          rfl
termination_by fuel

/-- Parsing inverts serialization for non-empty element lists. -/
theorem parseElems_strElems (fuel : Nat) (h : JsValue) (t : JsArr) (rest : List Char)
    (hu : noUndefV h = true) (ht : noUndefA t = true)
    (hf : (strElems (.cons h t)).length < fuel) :
    parseElems fuel (strElems (.cons h t) ++ ']' :: rest) = some (.cons h t, rest) := by
  cases fuel with
  | zero => omega
  | succ f =>
    rw [parseElems_succ]
    cases t with
    | nil =>
      have hb1 : (strV h).length ≤ f := by
        have he : strElems (JsArr.cons h JsArr.nil) = strV h := rfl
        rw [he] at hf; omega
      rw [show strElems (JsArr.cons h JsArr.nil) ++ ']' :: rest
            = strV h ++ ']' :: rest from rfl,
        parseVal_strV f h (']' :: rest) hu (numOkB_cons h _ (by decide)) hb1]
      dsimp only []
      rw [skipWs_cons rest (by decide)]
      rfl
    | cons h' t' =>
      have he : strElems (JsArr.cons h (JsArr.cons h' t'))
          = strV h ++ ',' :: strElems (JsArr.cons h' t') := rfl
      have hlen : (strElems (JsArr.cons h (JsArr.cons h' t'))).length
          = (strV h).length + 1 + (strElems (JsArr.cons h' t')).length := by
        rw [he]; simp; omega
      rw [show strElems (JsArr.cons h (JsArr.cons h' t')) ++ ']' :: rest
            = strV h ++ (',' :: (strElems (JsArr.cons h' t') ++ ']' :: rest)) from by
          rw [he, List.append_assoc, List.cons_append],
        parseVal_strV f h _ hu (numOkB_cons h _ (by decide)) (by omega)]
      dsimp only []
      rw [skipWs_cons _ (by decide)]
      split
      · rename_i heq
        exact absurd (List.head_eq_of_cons_eq heq).symm (by decide)
      · rename_i heq
        rw [List.cons_eq_cons] at heq
        have hy : (noUndefV h' && noUndefA t') = true := ht
        rw [Bool.and_eq_true] at hy
        obtain ⟨ht1, ht2⟩ := hy
        rw [← heq.2, parseElems_strElems f h' t' rest ht1 ht2 (by omega)]
      · rename_i hne1 hne2
        exact absurd rfl (hne2 _)
termination_by fuel

/-- Parsing inverts serialization for non-empty field lists. -/
theorem parseFields_strFields (fuel : Nat) (k : String) (v : JsValue) (t : JsObj)
    (rest : List Char) (hu : noUndefV v = true) (ht : noUndefO t = true)
    (hf : (strFields (.cons k v t)).length < fuel) :
    parseFields fuel (strFields (.cons k v t) ++ '}' :: rest) = some (.cons k v t, rest) := by
  cases fuel with
  | zero => omega
  | succ f =>
    cases t with
    | nil =>
      have hlen : (strFields (JsObj.cons k v JsObj.nil)).length
          = (escapeChars k.data).length + 2 + 1 + (strV v).length := by
        show (strLit k ++ (':' :: strV v)).length = _
        rw [List.length_append, strLit_length]; simp; omega
      rw [show strFields (JsObj.cons k v JsObj.nil) ++ '}' :: rest
            = '"' :: (escapeChars k.data ++ '"' :: (':' :: (strV v ++ '}' :: rest))) from by
          show (strLit k ++ (':' :: strV v)) ++ '}' :: rest = _
          simp [strLit],
        parseFields_quote, parseStrBody_escape]
      dsimp only []
      rw [skipWs_cons _ (by decide)]
      split
      · rename_i heq
        rw [List.cons_eq_cons] at heq
        rw [← heq.2,
          parseVal_strV f v ('}' :: rest) hu (numOkB_cons v _ (by decide)) (by omega)]
        dsimp only []
        rw [skipWs_cons rest (by decide)]
        rfl
      · rename_i hne
        exact absurd rfl (hne _)
    | cons k' v' t' =>
      have hlen : (strFields (JsObj.cons k v (JsObj.cons k' v' t'))).length
          = (escapeChars k.data).length + 2 + 1 + (strV v).length + 1
            + (strFields (JsObj.cons k' v' t')).length := by
        show ((strLit k ++ (':' :: strV v)) ++ ',' :: strFields (JsObj.cons k' v' t')).length = _
        rw [List.length_append, List.length_append, strLit_length]; simp; omega
      rw [show strFields (JsObj.cons k v (JsObj.cons k' v' t')) ++ '}' :: rest
            = '"' :: (escapeChars k.data ++ '"' :: (':' :: (strV v
                ++ ',' :: (strFields (JsObj.cons k' v' t') ++ '}' :: rest)))) from by
          show ((strLit k ++ (':' :: strV v)) ++ ',' :: strFields (JsObj.cons k' v' t'))
              ++ '}' :: rest = _
          simp [strLit],
        parseFields_quote, parseStrBody_escape]
      dsimp only []
      rw [skipWs_cons _ (by decide)]
      split
      · rename_i heq
        rw [List.cons_eq_cons] at heq
        rw [← heq.2,
          parseVal_strV f v _ hu (numOkB_cons v _ (by decide)) (by omega)]
        dsimp only []
        rw [skipWs_cons _ (by decide)]
        split
        · rename_i heq2
          exact absurd (List.head_eq_of_cons_eq heq2).symm (by decide)
        · rename_i heq2
          rw [List.cons_eq_cons] at heq2
          have hy : (noUndefV v' && noUndefO t') = true := ht
          rw [Bool.and_eq_true] at hy
          obtain ⟨ht1, ht2⟩ := hy
          rw [← heq2.2, parseFields_strFields f k' v' t' rest ht1 ht2 (by omega)]
        · rename_i hne1 hne2
          exact absurd rfl (hne2 _)
      · rename_i hne
        exact absurd rfl (hne _)
termination_by fuel

end

/-- The round-trip law: parsing the serialization of any undefined-free
value recovers the value exactly. -/
theorem jsonParse_jsonStringify (v : JsValue) (hu : noUndefV v = true) :
    jsonParse (jsonStringify v) = .ok v := by
  unfold jsonParse
  have hdata : (jsonStringify v).data = strV v := rfl
  rw [hdata]
  have hmain := parseVal_strV ((strV v).length + 1) v [] hu (numOkB_nil v) (by omega)
  rw [List.append_nil] at hmain
  rw [hmain]
  rfl
/-! ## Claim theorems -/

/-- C4: for every JSON-serializable data value, `createSuccessResponse`
returns statusCode 200 with exactly the fixed Content-Type and
Cache-Control headers, and parsing the response body as JSON yields a
value deep-equal to the input (lossless round-trip, no fields added or
removed). -/
theorem createSuccessResponse_spec (data : JsValue) (hu : noUndefV data = true) :
    createSuccessResponse data =
      ⟨200,
       [("Content-Type", "application/json"),
        ("Cache-Control", "no-cache, no-store, must-revalidate")],
       jsonStringify data⟩ ∧
    jsonParse (createSuccessResponse data).body = .ok data :=
  ⟨rfl, jsonParse_jsonStringify data hu⟩

/-- Witness for C4 at a concrete object value. -/
theorem createSuccessResponse_spec_witness :
    jsonParse (createSuccessResponse
        (.obj (.cons "answer" (.num 42) .nil))).body
      = .ok (.obj (.cons "answer" (.num 42) .nil)) ∧
    (createSuccessResponse (.obj (.cons "answer" (.num 42) .nil))).statusCode = 200 :=
  ⟨(createSuccessResponse_spec (.obj (.cons "answer" (.num 42) .nil)) (by decide)).2,
   rfl⟩

/-- C5: when the timeout timer fires before the upstream request
completes (the fetch rejects with `AbortError`), `callGoogleAPI` fails
with statusCode 504 and a message that includes the configured timeout
value. -/
theorem callGoogleAPI_timeout (url : String) (payload : JsValue) (timeout : Nat) :
    callGoogleAPI url payload .abortError timeout =
      .fail (mkErrorResponse 504 ("請求超時（" ++ natStr timeout ++ "ms）。請稍後重試。")) ∧
    strContains ("請求超時（" ++ natStr timeout ++ "ms）。請稍後重試。") (natStr timeout) := by
  refine ⟨rfl, ?_⟩
  have h : "請求超時（" ++ natStr timeout ++ "ms）。請稍後重試。"
      = "請求超時（" ++ natStr timeout ++ "ms）。請稍後重試。" := rfl
  exact strContains_mid "請求超時（" (natStr timeout) "ms）。請稍後重試。"

/-- C6: a non-2xx upstream HTTP status makes `callGoogleAPI` fail with
the upstream's numeric status propagated verbatim, and a message that
includes both the status and the raw body text. -/
theorem callGoogleAPI_httpError (url : String) (payload : JsValue)
    (timeout status : Nat) (bodyText : String)
    (h : ¬(200 ≤ status ∧ status < 300)) :
    callGoogleAPI url payload (.response status bodyText) timeout =
      .fail (mkErrorResponse status
        ("Google API 錯誤 (" ++ natStr status ++ "): " ++ bodyText)) ∧
    strContains ("Google API 錯誤 (" ++ natStr status ++ "): " ++ bodyText)
      (natStr status) ∧
    strContains ("Google API 錯誤 (" ++ natStr status ++ "): " ++ bodyText)
      bodyText := by
  refine ⟨?_, ?_, ?_⟩
  · have hcond : (!(200 ≤ status && status < 300)) = true := by
      by_cases h1 : 200 ≤ status
      · have h2 : ¬(status < 300) := fun hc => h ⟨h1, hc⟩
        simp [h1, h2]
      · simp [h1]
    simp only [callGoogleAPI, if_pos hcond]
  · have heq : "Google API 錯誤 (" ++ natStr status ++ "): " ++ bodyText
        = "Google API 錯誤 (" ++ natStr status ++ ("): " ++ bodyText) := by
      simp [String.append_assoc]
    rw [heq]
    exact strContains_mid "Google API 錯誤 (" (natStr status) ("): " ++ bodyText)
  · exact strContains_suffixed ("Google API 錯誤 (" ++ natStr status ++ "): ") bodyText

/-- Witness for C6 at upstream status 404. -/
theorem callGoogleAPI_httpError_witness :
    callGoogleAPI "u" (.obj .nil) (.response 404 "not found") 30000 =
      .fail (mkErrorResponse 404
        ("Google API 錯誤 (" ++ natStr 404 ++ "): " ++ "not found")) :=
  (callGoogleAPI_httpError "u" (.obj .nil) 30000 404 "not found" (by omega)).1

/-- C7: `validateApiKey` fails with a status-500 error whose message
contains the credential keyword (API 金鑰) exactly when the environment
variable is absent or empty; otherwise it succeeds carrying the
credential string read from the configuration. -/
theorem validateApiKey_spec (env : Option String) :
    ((env = none ∨ env = some "") →
      validateApiKey env = .fail (mkErrorResponse 500 "API 金鑰未設定。請檢查環境變數配置。") ∧
      strContains "API 金鑰未設定。請檢查環境變數配置。" "API 金鑰") ∧
    (∀ k, env = some k → k ≠ "" → validateApiKey env = .ok k) ∧
    ((∃ e, validateApiKey env = .fail e) ↔ (env = none ∨ env = some "")) := by
  have hcontain : strContains "API 金鑰未設定。請檢查環境變數配置。" "API 金鑰" := by
    have : ("API 金鑰未設定。請檢查環境變數配置。" : String)
        = "API 金鑰" ++ "未設定。請檢查環境變數配置。" := by decide
    rw [this]
    exact strContains_prefixed "API 金鑰" "未設定。請檢查環境變數配置。"
  refine ⟨?_, ?_, ?_⟩
  · rintro (rfl | rfl)
    · exact ⟨rfl, hcontain⟩
    · exact ⟨by simp [validateApiKey], hcontain⟩
  · rintro k rfl hk
    simp [validateApiKey, hk]
  · constructor
    · rintro ⟨e, he⟩
      match env, he with
      | none, _ => exact Or.inl rfl
      | some k, he =>
        by_cases hk : k = ""
        · exact Or.inr (by rw [hk])
        · simp [validateApiKey, hk] at he
    · rintro (rfl | rfl)
      · exact ⟨mkErrorResponse 500 "API 金鑰未設定。請檢查環境變數配置。", rfl⟩
      · exact ⟨mkErrorResponse 500 "API 金鑰未設定。請檢查環境變數配置。",
          by simp [validateApiKey]⟩

/-- Witness for C7: unset and empty configurations fail with 500; a set
key is carried through. -/
theorem validateApiKey_spec_witness :
    validateApiKey none = .fail (mkErrorResponse 500 "API 金鑰未設定。請檢查環境變數配置。") ∧
    validateApiKey (some "") = .fail (mkErrorResponse 500 "API 金鑰未設定。請檢查環境變數配置。") ∧
    validateApiKey (some "test-key") = .ok "test-key" :=
  ⟨((validateApiKey_spec none).1 (Or.inl rfl)).1,
   ((validateApiKey_spec (some "")).1 (Or.inr rfl)).1,
   (validateApiKey_spec (some "test-key")).2.1 "test-key" rfl (by decide)⟩
/-- A non-empty string has positive length. -/
theorem strNe_length_pos (s : String) (h : s ≠ "") : 1 ≤ s.length := by
  cases s with
  | mk data =>
    cases data with
    | nil => exact absurd rfl h
    | cons c cs => simp [String.length]

/-- `validateTextLength` on a string value: the `!text` guard is the
emptiness test, then the length bound is checked exclusively. -/
theorem validateTextLength_str (s : String) (maxLength : Nat) (fieldName : String) :
    validateTextLength (.str s) maxLength fieldName =
      if s = "" then
        .invalid (mkErrorResponse 400 (fieldName ++ " 不得為空且必須是字符串。"))
      else if s.length > maxLength then
        .invalid (mkErrorResponse 400
          (fieldName ++ " 超過最大長度 " ++ natStr maxLength ++ " 字符（當前: "
            ++ natStr s.length ++ "）。"))
      else .valid := by
  by_cases hs : s = ""
  · simp [validateTextLength, jsTruthy, jsIsString, jsStrVal, hs]
  · by_cases hl : s.length > maxLength
    · simp [validateTextLength, jsTruthy, jsIsString, jsStrVal, hs, hl]
    · simp [validateTextLength, jsTruthy, jsIsString, jsStrVal, hs, hl]

/-- `validateTextLength` on every non-string value: the
`typeof text !== 'string'` guard fails it. -/
theorem validateTextLength_notStr (value : JsValue) (maxLength : Nat) (fieldName : String)
    (h : jsIsString value = false) :
    validateTextLength value maxLength fieldName =
      .invalid (mkErrorResponse 400 (fieldName ++ " 不得為空且必須是字符串。")) := by
  cases value with
  | str s => exact absurd h (by simp [jsIsString])
  | undefined => rfl
  | null => rfl
  | bool b => cases b <;> simp [validateTextLength, jsTruthy, jsIsString]
  | num n => simp [validateTextLength, jsTruthy, jsIsString]
  | arr a => rfl
  | obj o => rfl

/-- The length-failure message of `validateTextLength`. -/
def lengthFailMsg (fieldName : String) (maxLength L : Nat) : String :=
  fieldName ++ " 超過最大長度 " ++ natStr maxLength ++ " 字符（當前: "
    ++ natStr L ++ "）。"

theorem lengthFailMsg_contains (fieldName : String) (maxLength L : Nat) :
    strContains (lengthFailMsg fieldName maxLength L) fieldName ∧
    strContains (lengthFailMsg fieldName maxLength L) (natStr maxLength) ∧
    strContains (lengthFailMsg fieldName maxLength L) (natStr L) := by
  refine ⟨?_, ?_, ?_⟩
  · have heq : lengthFailMsg fieldName maxLength L
        = fieldName ++ (" 超過最大長度 " ++ natStr maxLength ++ " 字符（當前: "
          ++ natStr L ++ "）。") := by
      simp [lengthFailMsg, String.append_assoc]
    rw [heq]
    exact strContains_prefixed fieldName _
  · have heq : lengthFailMsg fieldName maxLength L
        = (fieldName ++ " 超過最大長度 ") ++ natStr maxLength
          ++ (" 字符（當前: " ++ natStr L ++ "）。") := by
      simp [lengthFailMsg, String.append_assoc]
    rw [heq]
    exact strContains_mid _ (natStr maxLength) _
  · have heq : lengthFailMsg fieldName maxLength L
        = (fieldName ++ " 超過最大長度 " ++ natStr maxLength ++ " 字符（當前: ")
          ++ natStr L ++ "）。" := by
      simp [lengthFailMsg, String.append_assoc]
    rw [heq]
    exact strContains_mid _ (natStr L) "）。"

/-- C1: `validateTextLength` succeeds iff the value is a string of
length 1 ≤ L ≤ maxLength; every failure is a status-400 error whose
message contains the field name; a length failure's message contains
both the bound and the observed length; and the bound is exclusive —
exactly maxLength characters pass, maxLength + 1 fail. -/
theorem validateTextLength_spec (value : JsValue) (maxLength : Nat) (fieldName : String)
    (hpos : 1 ≤ maxLength) :
    (validateTextLength value maxLength fieldName = .valid ↔
      ∃ s, value = .str s ∧ 1 ≤ s.length ∧ s.length ≤ maxLength) ∧
    (∀ e, validateTextLength value maxLength fieldName = .invalid e →
      ∃ m, e = mkErrorResponse 400 m ∧ strContains m fieldName) ∧
    (∀ s : String, value = .str s → 1 ≤ s.length → maxLength < s.length →
      validateTextLength value maxLength fieldName =
        .invalid (mkErrorResponse 400 (lengthFailMsg fieldName maxLength s.length)) ∧
      strContains (lengthFailMsg fieldName maxLength s.length) fieldName ∧
      strContains (lengthFailMsg fieldName maxLength s.length) (natStr maxLength) ∧
      strContains (lengthFailMsg fieldName maxLength s.length) (natStr s.length)) ∧
    (∀ s : String, value = .str s → s.length = maxLength →
      validateTextLength value maxLength fieldName = .valid) ∧
    (∀ s : String, value = .str s → s.length = maxLength + 1 →
      validateTextLength value maxLength fieldName ≠ .valid) := by
  refine ⟨?_, ?_, ?_, ?_, ?_⟩
  · constructor
    · intro hv
      cases value with
      | str s =>
        rw [validateTextLength_str] at hv
        by_cases hs : s = ""
        · rw [if_pos hs] at hv; exact absurd hv (by simp)
        · rw [if_neg hs] at hv
          by_cases hl : s.length > maxLength
          · rw [if_pos hl] at hv; exact absurd hv (by simp)
          · exact ⟨s, rfl, strNe_length_pos s hs, by omega⟩
      | undefined => rw [validateTextLength_notStr _ _ _ (by rfl)] at hv; exact absurd hv (by simp)
      | null => rw [validateTextLength_notStr _ _ _ (by rfl)] at hv; exact absurd hv (by simp)
      | bool b =>
        rw [validateTextLength_notStr _ _ _ (by rfl)] at hv; exact absurd hv (by simp)
      | num n =>
        rw [validateTextLength_notStr _ _ _ (by rfl)] at hv; exact absurd hv (by simp)
      | arr a => rw [validateTextLength_notStr _ _ _ (by rfl)] at hv; exact absurd hv (by simp)
      | obj o => rw [validateTextLength_notStr _ _ _ (by rfl)] at hv; exact absurd hv (by simp)
    · rintro ⟨s, rfl, h1, h2⟩
      have hs : ¬(s = "") := fun he => by subst he; simp at h1
      have hl : ¬(s.length > maxLength) := by omega
      rw [validateTextLength_str, if_neg hs, if_neg hl]
  · intro e he
    cases value with
    | str s =>
      rw [validateTextLength_str] at he
      by_cases hs : s = ""
      · rw [if_pos hs] at he
        simp only [TextLengthResult.invalid.injEq] at he
        exact ⟨_, he.symm, strContains_prefixed fieldName " 不得為空且必須是字符串。"⟩
      · rw [if_neg hs] at he
        by_cases hl : s.length > maxLength
        · rw [if_pos hl] at he
          simp only [TextLengthResult.invalid.injEq] at he
          exact ⟨lengthFailMsg fieldName maxLength s.length, he.symm,
            (lengthFailMsg_contains fieldName maxLength s.length).1⟩
        · rw [if_neg hl] at he; exact absurd he (by simp)
    | undefined =>
      rw [validateTextLength_notStr _ _ _ (by rfl)] at he
      simp only [TextLengthResult.invalid.injEq] at he
      exact ⟨_, he.symm, strContains_prefixed fieldName " 不得為空且必須是字符串。"⟩
    | null =>
      rw [validateTextLength_notStr _ _ _ (by rfl)] at he
      simp only [TextLengthResult.invalid.injEq] at he
      exact ⟨_, he.symm, strContains_prefixed fieldName " 不得為空且必須是字符串。"⟩
    | bool b =>
      rw [validateTextLength_notStr _ _ _ (by cases b <;> rfl)] at he
      simp only [TextLengthResult.invalid.injEq] at he
      exact ⟨_, he.symm, strContains_prefixed fieldName " 不得為空且必須是字符串。"⟩
    | num n =>
      rw [validateTextLength_notStr _ _ _ (by rfl)] at he
      simp only [TextLengthResult.invalid.injEq] at he
      exact ⟨_, he.symm, strContains_prefixed fieldName " 不得為空且必須是字符串。"⟩
    | arr a =>
      rw [validateTextLength_notStr _ _ _ (by rfl)] at he
      simp only [TextLengthResult.invalid.injEq] at he
      exact ⟨_, he.symm, strContains_prefixed fieldName " 不得為空且必須是字符串。"⟩
    | obj o =>
      rw [validateTextLength_notStr _ _ _ (by rfl)] at he
      simp only [TextLengthResult.invalid.injEq] at he
      exact ⟨_, he.symm, strContains_prefixed fieldName " 不得為空且必須是字符串。"⟩
  · rintro s rfl h1 h2
    have hs : ¬(s = "") := fun he => by subst he; simp at h1
    have hl : s.length > maxLength := h2
    refine ⟨?_, (lengthFailMsg_contains fieldName maxLength s.length).1,
      (lengthFailMsg_contains fieldName maxLength s.length).2.1,
      (lengthFailMsg_contains fieldName maxLength s.length).2.2⟩
    rw [validateTextLength_str, if_neg hs, if_pos hl]
    rfl
  · rintro s rfl hlen
    have hs : ¬(s = "") := fun he => by subst he; simp at hlen; omega
    have hl : ¬(s.length > maxLength) := by omega
    rw [validateTextLength_str, if_neg hs, if_neg hl]
  · rintro s rfl hlen
    have hs : ¬(s = "") := fun he => by subst he; simp at hlen
    have hl : s.length > maxLength := by omega
    rw [validateTextLength_str, if_neg hs, if_pos hl]
    simp
/-- Witness for C1: a 5-character string passes at bound 5, a
6-character string fails at bound 5 with a 400 error, and a non-string
fails. -/
theorem validateTextLength_spec_witness :
    validateTextLength (.str "abcde") 5 "text" = .valid ∧
    validateTextLength (.str "abcdef") 5 "text" ≠ .valid ∧
    validateTextLength (.num 7) 5 "text" ≠ .valid :=
  ⟨(validateTextLength_spec (.str "abcde") 5 "text" (by decide)).2.2.2.1 "abcde" rfl (by decide),
   (validateTextLength_spec (.str "abcdef") 5 "text" (by decide)).2.2.2.2 "abcdef" rfl (by decide),
   fun hv => by
    have h := (validateTextLength_spec (.num 7) 5 "text" (by decide)).1.mp hv
    obtain ⟨s, hs, -, -⟩ := h
    exact nomatch hs⟩

/-- Counterexample for C2: `validateTextLength` succeeds with the bare
marker `{ valid: true }` that carries nothing.  Two different in-range
strings produce identical results, so no function can recover the
validated value from the result; moreover the empty string (length 0 ≤
maxLength) fails rather than succeeding. -/
theorem validateTextLength_no_carried_value :
    validateTextLength (.str "ab") 5000 "text" = validateTextLength (.str "cd") 5000 "text" ∧
    validateTextLength (.str "ab") 5000 "text" = .valid ∧
    validateTextLength (.str "") 5000 "text" ≠ .valid ∧
    ¬ ∃ recover : TextLengthResult → String, ∀ s : String,
        validateTextLength (.str s) 5000 "text" = .valid →
        recover (validateTextLength (.str s) 5000 "text") = s := by
  have hab : validateTextLength (.str "ab") 5000 "text" = .valid := by decide
  have hcd : validateTextLength (.str "cd") 5000 "text" = .valid := by decide
  refine ⟨hab.trans hcd.symm, hab, by decide, ?_⟩
  rintro ⟨recover, hrec⟩
  have h1 := hrec "ab" hab
  have h2 := hrec "cd" hcd
  rw [hab] at h1
  rw [hcd] at h2
  exact absurd (h1.symm.trans h2) (by decide)

/-- C2 (amended): for every non-empty string value whose length does not
exceed maxLength, `validateTextLength` succeeds; the success result is
the bare `{ valid: true }` marker and carries no copy of the value — the
caller keeps using its own reference; only the failure side carries data
(an ErrorResponse). -/
theorem validateTextLength_ok_bare (s : String) (maxLength : Nat) (fieldName : String)
    (h1 : s ≠ "") (h2 : s.length ≤ maxLength) :
    validateTextLength (.str s) maxLength fieldName = .valid ∧
    ∀ s' : String, s' ≠ "" → s'.length ≤ maxLength →
      validateTextLength (.str s') maxLength fieldName
        = validateTextLength (.str s) maxLength fieldName := by
  have hok : ∀ u : String, u ≠ "" → u.length ≤ maxLength →
      validateTextLength (.str u) maxLength fieldName = .valid := by
    intro u hu hlu
    rw [validateTextLength_str, if_neg hu, if_neg (by omega)]
  refine ⟨hok s h1 h2, ?_⟩
  intro s' h1' h2'
  rw [hok s h1 h2, hok s' h1' h2']

/-- Witness for C2's amended theorem. -/
theorem validateTextLength_ok_bare_witness :
    validateTextLength (.str "hello") 5000 "text" = .valid :=
  (validateTextLength_ok_bare "hello" 5000 "text" (by decide) (by decide)).1
/-- C3: `parseRequestBody` fails with status 400 on null/empty (falsy)
input; on a non-empty string that is not valid JSON it fails with
status 400 and a message including the parser's diagnostic text; on a
valid JSON string it succeeds and the returned data is exactly the
result of the reference JSON parse (`jsonParse`), with no further
validation or transformation. -/
theorem parseRequestBody_spec (raw : Option String) :
    ((raw = none ∨ raw = some "") →
      parseRequestBody raw = .fail (mkErrorResponse 400 "請求體不得為空。")) ∧
    (∀ s, raw = some s → s ≠ "" →
      (∀ m, jsonParse s = .error m →
        parseRequestBody raw = .fail (mkErrorResponse 400 ("JSON 解析失敗: " ++ m)) ∧
        strContains ("JSON 解析失敗: " ++ m) m) ∧
      (∀ v, jsonParse s = .ok v → parseRequestBody raw = .ok v)) := by
  refine ⟨?_, ?_⟩
  · rintro (rfl | rfl)
    · rfl
    · simp [parseRequestBody]
  · rintro s rfl hs
    refine ⟨?_, ?_⟩
    · intro m hm
      refine ⟨?_, strContains_suffixed "JSON 解析失敗: " m⟩
      simp [parseRequestBody, hs, hm]
    · intro v hv
      simp [parseRequestBody, hs, hv]

/-- Witness for C3: empty and null bodies fail, broken JSON fails with
the diagnostic included, valid JSON round-trips. -/
theorem parseRequestBody_spec_witness :
    parseRequestBody none = .fail (mkErrorResponse 400 "請求體不得為空。") ∧
    parseRequestBody (some "\x7b invalid json")
      = .fail (mkErrorResponse 400 ("JSON 解析失敗: " ++ "Unexpected token in JSON")) ∧
    parseRequestBody (some "\x7b\"prompt\":\"hi\"\x7d")
      = .ok (.obj (.cons "prompt" (.str "hi") .nil)) :=
  ⟨(parseRequestBody_spec none).1 (Or.inl rfl),
   ((parseRequestBody_spec (some "\x7b invalid json")).2 "\x7b invalid json" rfl (by decide)).1
     "Unexpected token in JSON" (by rfl) |>.1,
   ((parseRequestBody_spec (some "\x7b\"prompt\":\"hi\"\x7d")).2 "\x7b\"prompt\":\"hi\"\x7d" rfl
     (by decide)).2 (.obj (.cons "prompt" (.str "hi") .nil)) (by rfl)⟩
/-- C8: every validation step returns a discriminated result (the
inductive result types of `validateApiKey`, `parseRequestBody` and
`validateTextLength` — no exception escapes them), and in both handlers
the first failing step short-circuits: its ErrorResponse is returned
verbatim as the final response, for every fetch outcome — showing that
no later step (in particular no upstream call) affects the result. -/
theorem handlers_short_circuit (env body : Option String) (fetchOutcome : FetchOutcome) :
    (∀ e, validateApiKey env = .fail e →
      generateTextHandler env body fetchOutcome = e ∧
      generateAudioHandler env body fetchOutcome = e) ∧
    (∀ k e, validateApiKey env = .ok k → parseRequestBody body = .fail e →
      generateTextHandler env body fetchOutcome = e ∧
      generateAudioHandler env body fetchOutcome = e) ∧
    (∀ k d e, validateApiKey env = .ok k → parseRequestBody body = .ok d → d ≠ .null →
      validateTextLength (jsGetField d "prompt") MAX_PROMPT_LENGTH "prompt" = .invalid e →
      generateTextHandler env body fetchOutcome = e) ∧
    (∀ k d e, validateApiKey env = .ok k → parseRequestBody body = .ok d → d ≠ .null →
      validateTextLength (jsGetField d "prompt") MAX_PROMPT_LENGTH "prompt" = .valid →
      jsTruthy (jsGetField d "systemInstruction") = true →
      validateTextLength (jsGetField d "systemInstruction") MAX_PROMPT_LENGTH
        "systemInstruction" = .invalid e →
      generateTextHandler env body fetchOutcome = e) ∧
    (∀ k d e, validateApiKey env = .ok k → parseRequestBody body = .ok d → d ≠ .null →
      validateTextLength (jsGetField d "text") MAX_TEXT_LENGTH "text" = .invalid e →
      generateAudioHandler env body fetchOutcome = e) := by
  refine ⟨?_, ?_, ?_, ?_, ?_⟩
  · intro e he
    constructor <;> simp [generateTextHandler, generateAudioHandler, he]
  · intro k e hk hp
    constructor <;> simp [generateTextHandler, generateAudioHandler, hk, hp]
  · intro k d e hk hp hd hv
    cases d with
    | null => exact absurd rfl hd
    | undefined => simp [generateTextHandler, hk, hp, hv]
    | bool b => simp [generateTextHandler, hk, hp, hv]
    | num n => simp [generateTextHandler, hk, hp, hv]
    | str s => simp [generateTextHandler, hk, hp, hv]
    | arr a => simp [generateTextHandler, hk, hp, hv]
    | obj o => simp [generateTextHandler, hk, hp, hv]
  · intro k d e hk hp hd hv1 hsys hv2
    cases d with
    | null => exact absurd rfl hd
    | undefined => simp [generateTextHandler, hk, hp, hv1, hsys, hv2]
    | bool b => simp [generateTextHandler, hk, hp, hv1, hsys, hv2]
    | num n => simp [generateTextHandler, hk, hp, hv1, hsys, hv2]
    | str s => simp [generateTextHandler, hk, hp, hv1, hsys, hv2]
    | arr a => simp [generateTextHandler, hk, hp, hv1, hsys, hv2]
    | obj o => simp [generateTextHandler, hk, hp, hv1, hsys, hv2]
  · intro k d e hk hp hd hv
    cases d with
    | null => exact absurd rfl hd
    | undefined => simp [generateAudioHandler, hk, hp, hv]
    | bool b => simp [generateAudioHandler, hk, hp, hv]
    | num n => simp [generateAudioHandler, hk, hp, hv]
    | str s => simp [generateAudioHandler, hk, hp, hv]
    | arr a => simp [generateAudioHandler, hk, hp, hv]
    | obj o => simp [generateAudioHandler, hk, hp, hv]
/-- Witness for C8: a missing credential short-circuits both handlers
with the credential error, and a wrong-typed prompt short-circuits the
text handler with the validation error, for an arbitrary fetch outcome. -/
theorem handlers_short_circuit_witness :
    generateTextHandler none (some "\x7b\x7d") .abortError
      = mkErrorResponse 500 "API 金鑰未設定。請檢查環境變數配置。" ∧
    generateAudioHandler none (some "\x7b\x7d") .abortError
      = mkErrorResponse 500 "API 金鑰未設定。請檢查環境變數配置。" ∧
    generateTextHandler (some "k") (some "\x7b\"prompt\":5\x7d") .abortError
      = mkErrorResponse 400 ("prompt" ++ " 不得為空且必須是字符串。") :=
  ⟨((handlers_short_circuit none (some "\x7b\x7d") .abortError).1 _ rfl).1,
   ((handlers_short_circuit none (some "\x7b\x7d") .abortError).1 _ rfl).2,
   (handlers_short_circuit (some "k") (some "\x7b\"prompt\":5\x7d") .abortError).2.2.1
     "k" (.obj (.cons "prompt" (.num 5) .nil)) _ rfl rfl (fun h => nomatch h) rfl⟩

/-- The post-call inline-audio check of the audio handler: the upstream
payload must hold truthy inline data at
`candidates[0].content.parts[0].inlineData.data`. -/
def hasInlineAudioData (updata : JsValue) : Bool :=
  jsTruthy (audioInlineData updata) && jsTruthy (jsGetField (audioInlineData updata) "data")

/-- C9: once the audio handler's earlier steps succeed, a successful
upstream result without non-empty inline audio data yields the distinct
MissingAudioData 500 error; with the data present the handler returns
the success envelope wrapping the upstream data. -/
theorem generateAudioHandler_postCheck (env body : Option String)
    (fetchOutcome : FetchOutcome) (k : String) (d updata : JsValue)
    (h1 : validateApiKey env = .ok k) (h2 : parseRequestBody body = .ok d)
    (h3 : d ≠ .null)
    (h4 : validateTextLength (jsGetField d "text") MAX_TEXT_LENGTH "text" = .valid)
    (h5 : callGoogleAPI (googleTtsApiUrl k) (audioPayload (jsGetField d "text"))
      fetchOutcome AUDIO_API_TIMEOUT = .ok updata) :
    (hasInlineAudioData updata = false →
      generateAudioHandler env body fetchOutcome = missingAudioResponse ∧
      missingAudioResponse.statusCode = 500) ∧
    (hasInlineAudioData updata = true →
      generateAudioHandler env body fetchOutcome = createSuccessResponse updata) := by
  constructor
  · intro hno
    refine ⟨?_, rfl⟩
    have hno' : jsTruthy (audioInlineData updata) = false ∨
        jsTruthy (jsGetField (audioInlineData updata) "data") = false := by
      cases ha : jsTruthy (audioInlineData updata) with
      | false => exact Or.inl rfl
      | true =>
        cases hb : jsTruthy (jsGetField (audioInlineData updata) "data") with
        | false => exact Or.inr rfl
        | true =>
          simp only [hasInlineAudioData, ha, hb] at hno
          exact absurd hno (by decide)
    clear hno
    cases d with
    | null => exact absurd rfl h3
    | undefined =>
      rcases hno' with hno | hno <;>
        simp [generateAudioHandler, h1, h2, h4, h5, hno]
    | bool b =>
      rcases hno' with hno | hno <;>
        simp [generateAudioHandler, h1, h2, h4, h5, hno]
    | num n =>
      rcases hno' with hno | hno <;>
        simp [generateAudioHandler, h1, h2, h4, h5, hno]
    | str s =>
      rcases hno' with hno | hno <;>
        simp [generateAudioHandler, h1, h2, h4, h5, hno]
    | arr a =>
      rcases hno' with hno | hno <;>
        simp [generateAudioHandler, h1, h2, h4, h5, hno]
    | obj o =>
      rcases hno' with hno | hno <;>
        simp [generateAudioHandler, h1, h2, h4, h5, hno]
  · intro hyes
    simp only [hasInlineAudioData] at hyes
    rw [Bool.and_eq_true] at hyes
    cases d with
    | null => exact absurd rfl h3
    | undefined => simp [generateAudioHandler, h1, h2, h4, h5, hyes.1, hyes.2]
    | bool b => simp [generateAudioHandler, h1, h2, h4, h5, hyes.1, hyes.2]
    | num n => simp [generateAudioHandler, h1, h2, h4, h5, hyes.1, hyes.2]
    | str s => simp [generateAudioHandler, h1, h2, h4, h5, hyes.1, hyes.2]
    | arr a => simp [generateAudioHandler, h1, h2, h4, h5, hyes.1, hyes.2]
    | obj o => simp [generateAudioHandler, h1, h2, h4, h5, hyes.1, hyes.2]
/-- Witness for C9: with the credential set, body text "hi" and a 2xx
upstream response, an upstream payload without inline audio data yields
the MissingAudioData error, and one with inline data yields the success
envelope. -/
theorem generateAudioHandler_postCheck_witness :
    generateAudioHandler (some "k") (some "\x7b\"text\":\"hi\"\x7d") (.response 200 "\x7b\x7d")
      = missingAudioResponse ∧
    generateAudioHandler (some "k") (some "\x7b\"text\":\"hi\"\x7d")
        (.response 200
          "\x7b\"candidates\":[\x7b\"content\":\x7b\"parts\":[\x7b\"inlineData\":\x7b\"data\":\"QUJD\"\x7d\x7d]\x7d\x7d]\x7d")
      = createSuccessResponse
          (.obj (.cons "candidates"
            (.arr (.cons (.obj (.cons "content"
              (.obj (.cons "parts"
                (.arr (.cons (.obj (.cons "inlineData"
                  (.obj (.cons "data" (.str "QUJD") .nil)) .nil)) .nil)) .nil)) .nil)) .nil)) .nil)) :=
  ⟨((generateAudioHandler_postCheck (some "k") (some "\x7b\"text\":\"hi\"\x7d")
      (.response 200 "\x7b\x7d") "k" (.obj (.cons "text" (.str "hi") .nil)) (.obj .nil)
      rfl rfl (fun h => nomatch h) rfl rfl).1 rfl).1,
   (generateAudioHandler_postCheck (some "k") (some "\x7b\"text\":\"hi\"\x7d")
      (.response 200
        "\x7b\"candidates\":[\x7b\"content\":\x7b\"parts\":[\x7b\"inlineData\":\x7b\"data\":\"QUJD\"\x7d\x7d]\x7d\x7d]\x7d")
      "k" (.obj (.cons "text" (.str "hi") .nil))
      (.obj (.cons "candidates"
        (.arr (.cons (.obj (.cons "content"
          (.obj (.cons "parts"
            (.arr (.cons (.obj (.cons "inlineData"
              (.obj (.cons "data" (.str "QUJD") .nil)) .nil)) .nil)) .nil)) .nil)) .nil)) .nil))
      rfl rfl (fun h => nomatch h) rfl rfl).2 rfl⟩
/-- C10: the four-character body "null" is valid JSON, so
`parseRequestBody` succeeds with the parsed value `null`; the text
handler then reaches the destructuring of the null payload, which throws
and is caught at the handler boundary, producing the generic status-500
伺服器錯誤 response — not any status-400 client-input error. -/
theorem generateTextHandler_nullBody (fetchOutcome : FetchOutcome) (k : String)
    (hk : k ≠ "") :
    parseRequestBody (some "null") = .ok .null ∧
    generateTextHandler (some k) (some "null") fetchOutcome
      = mkErrorResponse 500 ("伺服器錯誤: " ++ destructurePromptMsg) ∧
    (mkErrorResponse 500 ("伺服器錯誤: " ++ destructurePromptMsg)).statusCode = 500 ∧
    (mkErrorResponse 500 ("伺服器錯誤: " ++ destructurePromptMsg)).statusCode ≠ 400 ∧
    strContains ("伺服器錯誤: " ++ destructurePromptMsg) "伺服器錯誤" := by
  have hp : parseRequestBody (some "null") = .ok .null := rfl
  have hc : strContains ("伺服器錯誤: " ++ destructurePromptMsg) "伺服器錯誤" := by
    have h0 : ("伺服器錯誤: " : String) = "伺服器錯誤" ++ ": " := by decide
    rw [h0, String.append_assoc]
    exact strContains_prefixed "伺服器錯誤" (": " ++ destructurePromptMsg)
  refine ⟨hp, ?_, rfl, by decide, hc⟩
  simp [generateTextHandler, validateApiKey, hk, hp]

/-- Witness for C10 at a concrete key and fetch outcome. -/
theorem generateTextHandler_nullBody_witness :
    parseRequestBody (some "null") = .ok .null ∧
    generateTextHandler (some "test-key") (some "null") .abortError
      = mkErrorResponse 500 ("伺服器錯誤: " ++ destructurePromptMsg) :=
  ⟨(generateTextHandler_nullBody .abortError "test-key" (by decide)).1,
   (generateTextHandler_nullBody .abortError "test-key" (by decide)).2.1⟩

/-- Witness for C5 at a concrete URL, payload and timeout. -/
theorem callGoogleAPI_timeout_eval :
    callGoogleAPI "u" (.obj .nil) .abortError 30000 =
      .fail (mkErrorResponse 504 ("請求超時（" ++ natStr 30000 ++ "ms）。請稍後重試。")) :=
  (callGoogleAPI_timeout "u" (.obj .nil) 30000).1
